import Mathlib

/-!
Shallow embedding of the badgerdb buffer manager implemented in
`src/buffer.cpp` (class `BufMgr`), together with proofs about its
operations: `advanceClock`, `allocBuf`, `readPage`, `unPinPage`,
`flushFile` and `allocPage`.

Modelling conventions:
* A `File*` is modelled as a `Nat` identifier; the descriptor's `file`
  field is `Option Nat` (`none` = `NULL`).
* `pinCnt` is modelled as `Int`, so that "the pin count never goes below
  zero" is a contentful statement rather than a fact of the `Nat` type;
  the source checks `pinCnt <= 0` and `pinCnt > 0`, translated verbatim.
* The external `BufHashTbl` is an association list from `(file, pageNo)`
  to a frame index; the external file/disk backend is an association list
  of page contents plus an explicit trace of `writePage` events, so that
  "the backend observes a write" is statable.
* Exceptions are modelled with an explicit error sum; since a C++ `throw`
  unwinds but leaves the `BufMgr` object's heap state as it was at the
  throw point, every operation returns `(Except BufException α) × BufState`
  where the state component is the state at normal or abnormal exit.
* `BufState.advCount` is a ghost counter of `advanceClock` calls; no
  operation reads it, it only instruments the cursor-advance count.
-/

/-- The reserved invalid page number sentinel (`Page::INVALID_NUMBER`).
Modelled from the spec: the `Page` class is not under `src/`; §6 requires
"a reserved `INVALID_NUMBER` sentinel value distinct from any real page
number". Real pages in this model carry numbers ≥ 1. -/
def INVALID_NUMBER : Nat := 0

/-- A disk page: its own identity (`page_number()` accessor in the source)
and its byte content, abstracted to one `Nat`. -/
structure Page where
  page_number : Nat
  data : Nat
deriving Repr, DecidableEq

/-- The default/empty page used for out-of-range pool reads. -/
def emptyPage : Page := { page_number := INVALID_NUMBER, data := 0 }

/-- One frame descriptor (`BufDesc` from `buffer.h`, fields as listed in
spec §3): occupancy, owning page identity, pin count, dirty flag and
reference bit. -/
structure BufDesc where
  frameNo : Nat
  valid : Bool
  file : Option Nat
  pageNo : Nat
  pinCnt : Int
  dirty : Bool
  refbit : Bool
deriving Repr, DecidableEq

/-- Modelled from the spec: `BufDesc::Clear` (in `buffer.h`, not under
`src/`). Spec §3: a non-valid frame has all auxiliary fields at their
cleared defaults (`pinCnt == 0`, `file == none`, `pageNo == invalid`,
`dirty == false`, `refbit == false`). -/
def BufDesc.Clear (d : BufDesc) : BufDesc :=
  { d with valid := false, file := none, pageNo := INVALID_NUMBER,
           pinCnt := 0, dirty := false, refbit := false }

/-- Modelled from the spec: `BufDesc::Set` (in `buffer.h`, not under
`src/`). Spec §4.3 miss path: populate the descriptor with `valid=true`,
the file and page identity, `pinCnt=1`, `refbit=true`, `dirty=false`. -/
def BufDesc.Set (d : BufDesc) (file : Nat) (pageNo : Nat) : BufDesc :=
  { d with valid := true, file := some file, pageNo := pageNo,
           pinCnt := 1, refbit := true, dirty := false }

/-- The empty (cleared) descriptor, used for out-of-range reads of the
descriptor table. -/
def emptyDesc : BufDesc :=
  { frameNo := 0, valid := false, file := none, pageNo := INVALID_NUMBER,
    pinCnt := 0, dirty := false, refbit := false }

/-- The exceptions thrown by `buffer.cpp` (headers under `exceptions/`). -/
inductive BufException where
  | bufferExceeded
  | pageNotPinned (filename : Nat) (pageNo : Nat) (frameNo : Nat)
  | pagePinned (filename : Nat) (pageNo : Nat) (frameNo : Nat)
  | badBuffer (frameNo : Nat) (dirty : Bool) (valid : Bool) (refbit : Bool)
  | invalidPage
deriving Repr, DecidableEq

/-- The external page storage backend (spec §6): durable page contents
keyed by `(file, pageNo)` (newest entry first, so `cons` shadows), a
per-file next-page-number table for `allocatePage`, and an explicit trace
of `writePage` events (newest first) so theorems can speak about which
writes the backend observed. -/
structure DiskState where
  contents : List ((Nat × Nat) × Nat)
  nextPageTable : List (Nat × Nat)
  writes : List (Nat × Page)
deriving Repr, DecidableEq

/-- Backend `file->readPage(pageNo)`: the newest content registered for
`(file, pageNo)`, or `none` when the page does not exist in the file. -/
def diskRead (dk : DiskState) (file pageNo : Nat) : Option Nat :=
  (dk.contents.find? (fun e => decide (e.fst = (file, pageNo)))).map Prod.snd

/-- Backend `file->writePage(page)`: the page carries its own identity;
record the new content and append the event to the write trace. -/
def DiskState.writePage (dk : DiskState) (file : Nat) (pg : Page) : DiskState :=
  { dk with contents := ((file, pg.page_number), pg.data) :: dk.contents,
            writes := (file, pg) :: dk.writes }

/-- Backend `file->allocatePage()`: assign the file's next page number
(first real page number is 1, since 0 is the invalid sentinel), create the
page on disk with backend-initialised content 0, and return it. -/
def DiskState.allocatePage (dk : DiskState) (file : Nat) : Page × DiskState :=
  let p := ((dk.nextPageTable.find? (fun e => decide (e.fst = file))).map Prod.snd).getD 1
  ({ page_number := p, data := 0 },
   { dk with contents := ((file, p), 0) :: dk.contents,
             nextPageTable := (file, p + 1) :: dk.nextPageTable })

/-- External `BufHashTbl::lookup`: the frame registered for
`(file, pageNo)`, if any. -/
def hashLookup (ht : List ((Nat × Nat) × Nat)) (file pageNo : Nat) : Option Nat :=
  (ht.find? (fun e => decide (e.fst = (file, pageNo)))).map Prod.snd

/-- External `BufHashTbl::insert`: register `(file, pageNo) ↦ frameNo`
(call sites in `buffer.cpp` only insert currently-absent keys). -/
def hashInsert (ht : List ((Nat × Nat) × Nat)) (file pageNo frameNo : Nat) :
    List ((Nat × Nat) × Nat) :=
  ((file, pageNo), frameNo) :: ht

/-- External `BufHashTbl::remove`: drop every entry registered for
`(file, pageNo)` (the real table holds at most one). -/
def hashRemove (ht : List ((Nat × Nat) × Nat)) (file pageNo : Nat) :
    List ((Nat × Nat) × Nat) :=
  ht.filter (fun e => !(decide (e.fst = (file, pageNo))))

/-- The whole `BufMgr` state: capacity, descriptor table, page pool,
identity index, clock cursor, backend disk, and the ghost advance
counter. -/
structure BufState where
  numBufs : Nat
  bufDescTable : List BufDesc
  bufPool : List Page
  hashTable : List ((Nat × Nat) × Nat)
  clockHand : Nat
  disk : DiskState
  advCount : Nat
deriving Repr, DecidableEq

/-- Read the descriptor of frame `i` (`bufDescTable[i]`). -/
def BufState.getDesc (s : BufState) (i : Nat) : BufDesc :=
  s.bufDescTable.getD i emptyDesc

/-- Write the descriptor of frame `i`. -/
def BufState.setDesc (s : BufState) (i : Nat) (d : BufDesc) : BufState :=
  { s with bufDescTable := s.bufDescTable.set i d }

/-- `bufDescTable[i].file->writePage(bufPool[i])`: write frame `i`'s pool
page back through its owning file. -/
def BufState.writeBackFrame (s : BufState) (i : Nat) : BufState :=
  { s with disk := s.disk.writePage ((s.getDesc i).file.getD 0) (s.bufPool.getD i emptyPage) }

/-- `BufMgr::BufMgr(bufs)`: all frames cleared with their fixed `frameNo`,
empty index, clock hand at `bufs - 1` (so the first sweep starts at frame
0 after the initial advance). The hash-table sizing arithmetic of the
constructor concerns only the external table and is not modelled. -/
def initBufMgr (bufs : Nat) : BufState :=
  { numBufs := bufs,
    bufDescTable := (List.range bufs).map (fun i => { emptyDesc with frameNo := i }),
    bufPool := (List.range bufs).map (fun _ => emptyPage),
    hashTable := [],
    clockHand := bufs - 1,
    disk := { contents := [], nextPageTable := [], writes := [] },
    advCount := 0 }

/-- `BufMgr::advanceClock`: move the cursor one position, modulo the
capacity (and bump the ghost advance counter). -/
def advanceClock (s : BufState) : BufState :=
  { s with clockHand := (s.clockHand + 1) % s.numBufs, advCount := s.advCount + 1 }

/-- The second-chance step `bufDescTable[clockHand].refbit = false` of
`allocBuf` (line 85), applied at frame `i`. -/
def clearRefbitAt (s : BufState) (i : Nat) : BufState :=
  s.setDesc i { s.getDesc i with refbit := false }

/-- The write-back/remove/clear sequence applied to frame `i` both by the
victim branch of `allocBuf` (lines 94-98) and by the per-frame flush of
`flushFile` (lines 167-171): write the frame back through its file if
dirty, remove its identity-index entry, clear its descriptor. -/
def evictFrame (s : BufState) (i : Nat) : BufState :=
  let s1 := if (s.getDesc i).dirty = true then s.writeBackFrame i else s
  let s2 := { s1 with
    hashTable := hashRemove s1.hashTable (((s.getDesc i).file).getD 0) ((s.getDesc i).pageNo) }
  s2.setDesc i ((s.getDesc i).Clear)

/-- The `while (maxBound > 0)` sweep of `BufMgr::allocBuf`, with `maxBound`
as fuel. Alongside the selected frame index the result carries the
descriptor of that frame as observed at the moment the sweep stopped
(before `Clear()` for an occupied victim) — a ghost observation that does
not influence any state change. Exhausted fuel is the post-loop
`if (maxBound == 0) throw BufferExceededException()`. -/
def allocBufLoop : Nat → BufState → (Except BufException (Nat × BufDesc)) × BufState
  | 0, s => (.error .bufferExceeded, s)
  | m + 1, s =>
    if (s.getDesc s.clockHand).valid = false then
      (.ok (s.clockHand, s.getDesc s.clockHand), s)
    else if (s.getDesc s.clockHand).refbit = true then
      allocBufLoop m (advanceClock (clearRefbitAt s s.clockHand))
    else if 0 < (s.getDesc s.clockHand).pinCnt then
      allocBufLoop m (advanceClock s)
    else
      (.ok (s.clockHand, s.getDesc s.clockHand), evictFrame s s.clockHand)

/-- `BufMgr::allocBuf` with the ghost selection descriptor exposed:
`maxBound = 2 * numBufs`, one `advanceClock` before the sweep. -/
def allocBufG (s : BufState) : (Except BufException (Nat × BufDesc)) × BufState :=
  allocBufLoop (2 * s.numBufs) (advanceClock s)

/-- `BufMgr::allocBuf`: the returned `frame` out-parameter is the final
clock-hand position; the ghost descriptor is dropped. -/
def allocBuf (s : BufState) : (Except BufException Nat) × BufState :=
  let r := allocBufG s
  (r.fst.map (fun x => x.fst), r.snd)

/-- The hit branch of `BufMgr::readPage` (lines 117–118): increment
`pinCnt`, then set `refbit`, on the found frame. -/
def readPageHit (s : BufState) (frameNo : Nat) : BufState :=
  let s1 := s.setDesc frameNo
    { s.getDesc frameNo with pinCnt := (s.getDesc frameNo).pinCnt + 1 }
  s1.setDesc frameNo { s1.getDesc frameNo with refbit := true }

/-- The miss branch of `BufMgr::readPage` after a frame was obtained and
the backend returned content `v` (lines 121–123): install the page in the
pool, `Set` the descriptor, register the mapping. -/
def readPageFill (s1 : BufState) (file pageNo frameNo v : Nat) : BufState :=
  let s2 := { s1 with bufPool := s1.bufPool.set frameNo { page_number := pageNo, data := v } }
  let s3 := s2.setDesc frameNo ((s2.getDesc frameNo).Set file pageNo)
  { s3 with hashTable := hashInsert s3.hashTable file pageNo frameNo }

/-- `BufMgr::readPage`: on an index hit, increment `pinCnt` then set
`refbit`; on a miss, obtain a frame, read the page from the backend into
the pool, `Set` the descriptor and register the mapping. The returned
value is the frame index, standing for the `Page*` handle
`&bufPool[frameNo]`. -/
def readPage (s : BufState) (file pageNo : Nat) : (Except BufException Nat) × BufState :=
  match hashLookup s.hashTable file pageNo with
  | some frameNo => (.ok frameNo, readPageHit s frameNo)
  | none =>
    match allocBuf s with
    | (.error e, s1) => (.error e, s1)
    | (.ok frameNo, s1) =>
      match diskRead s1.disk file pageNo with
      | none => (.error .invalidPage, s1)
      | some v => (.ok frameNo, readPageFill s1 file pageNo frameNo v)

/-- `BufMgr::unPinPage`: not-found is a silent no-op; a found frame with
`pinCnt <= 0` throws `PageNotPinnedException` (before the dirty flag is
touched); otherwise decrement, then set `dirty` if the caller reports a
modification. -/
def unPinPage (s : BufState) (file pageNo : Nat) (dirty : Bool) :
    (Except BufException Unit) × BufState :=
  match hashLookup s.hashTable file pageNo with
  | none => (.ok (), s)
  | some frameNo =>
    if (s.getDesc frameNo).pinCnt ≤ 0 then
      (.error (.pageNotPinned file pageNo frameNo), s)
    else
      let s1 := s.setDesc frameNo
        { s.getDesc frameNo with pinCnt := (s.getDesc frameNo).pinCnt - 1 }
      let s2 :=
        if dirty = true then
          s1.setDesc frameNo { s1.getDesc frameNo with dirty := true }
        else s1
      (.ok (), s2)

/-- The consistency-check condition of `flushFile` (line 158): the frame
is not valid yet some auxiliary field is not at its cleared default. -/
def corruptDesc (d : BufDesc) : Prop :=
  d.valid = false ∧ (d.pinCnt ≠ 0 ∨ d.file ≠ none ∨
    d.pageNo ≠ INVALID_NUMBER ∨ d.dirty = true ∨ d.refbit = true)

instance (d : BufDesc) : Decidable (corruptDesc d) := by
  unfold corruptDesc; infer_instance

/-- The `for (i = 0; i < numBufs; i++)` body of `BufMgr::flushFile`, with
the number of remaining frames as fuel and `i` the current index: corrupt
invalid frames throw `BadBufferException`; frames that are invalid or
belong to another file are skipped; a pinned frame of `file` throws
`PagePinnedException`; otherwise write back if dirty, remove from the
index, clear the descriptor (`evictFrame`, the same sequence as the
eviction branch of `allocBuf`). -/
def flushFileLoop (file : Nat) : Nat → Nat → BufState → (Except BufException Unit) × BufState
  | 0, _, s => (.ok (), s)
  | m + 1, i, s =>
    if corruptDesc (s.getDesc i) then
      (.error (.badBuffer i (s.getDesc i).dirty false (s.getDesc i).refbit), s)
    else if (s.getDesc i).valid = false ∨ (s.getDesc i).file ≠ some file then
      flushFileLoop file m (i + 1) s
    else if 0 < (s.getDesc i).pinCnt then
      (.error (.pagePinned file (s.getDesc i).pageNo i), s)
    else
      flushFileLoop file m (i + 1) (evictFrame s i)

/-- `BufMgr::flushFile`: walk all `numBufs` frames from index 0. -/
def flushFile (s : BufState) (file : Nat) : (Except BufException Unit) × BufState :=
  flushFileLoop file s.numBufs 0 s

/-- The registration step of `BufMgr::allocPage` (lines 187-189) once a
frame was obtained: register the mapping, `Set` the descriptor, install
the page in the pool. The full operation asks the backend for a fresh
page first, then obtains a frame; if `allocBuf` throws, the exception
propagates with the backend allocation already done. -/
def allocPageFill (s1 : BufState) (file frame : Nat) (new_pg : Page) : BufState :=
  let s2 := { s1 with hashTable := hashInsert s1.hashTable file new_pg.page_number frame }
  let s3 := s2.setDesc frame ((s2.getDesc frame).Set file new_pg.page_number)
  { s3 with bufPool := s3.bufPool.set frame new_pg }

/-- The whole of `BufMgr::allocPage` (lines 181-192). -/
def allocPage (s : BufState) (file : Nat) : (Except BufException (Nat × Nat)) × BufState :=
  let a := s.disk.allocatePage file
  let new_pg := a.fst
  let s0 := { s with disk := a.snd }
  match allocBuf s0 with
  | (.error e, s1) => (.error e, s1)
  | (.ok frame, s1) => (.ok (new_pg.page_number, frame), allocPageFill s1 file frame new_pg)

/-- Modelled from the spec: a consumer holding a pinned handle mutates the
page content in place through the returned `Page*` (spec §5: a handle is
valid into the frame data slot while the pin is held). This is a client
action on the pool memory, not a `BufMgr` member function. -/
def writeThroughHandle (s : BufState) (frame : Nat) (v : Nat) : BufState :=
  { s with bufPool := s.bufPool.set frame ({ s.bufPool.getD frame emptyPage with data := v }) }

/-- A fetch-or-release step, for stating properties of arbitrary
fetch/release sequences. -/
inductive PoolOp where
  | read (file pageNo : Nat)
  | unpin (file pageNo : Nat) (dirty : Bool)
deriving Repr, DecidableEq

/-- Run one fetch/release operation, keeping the resulting state whether
the operation succeeded or threw. -/
def applyOp (s : BufState) : PoolOp → BufState
  | .read f p => (readPage s f p).snd
  | .unpin f p d => (unPinPage s f p d).snd

/-- Run a sequence of fetch/release operations. -/
def runOps (s : BufState) (ops : List PoolOp) : BufState :=
  ops.foldl applyOp s

/-- No frame's pin count is negative. -/
def pinsNonNeg (s : BufState) : Prop :=
  ∀ d ∈ s.bufDescTable, 0 ≤ d.pinCnt

instance (s : BufState) : Decidable (pinsNonNeg s) :=
  List.decidableBAll _ _

/-- Two descriptors that agree on every field except possibly `refbit`. -/
def sameExceptRefbit (d e : BufDesc) : Prop :=
  d.frameNo = e.frameNo ∧ d.valid = e.valid ∧ d.file = e.file ∧
  d.pageNo = e.pageNo ∧ d.pinCnt = e.pinCnt ∧ d.dirty = e.dirty

instance (d e : BufDesc) : Decidable (sameExceptRefbit d e) := by
  unfold sameExceptRefbit; infer_instance

/-! ### Basic facts about the state accessors -/

theorem getD_set_self {α : Type} (l : List α) (i : Nat) (a d : α) (h : i < l.length) :
    (l.set i a).getD i d = a := by
  simp [List.getD_eq_getElem?_getD, List.getElem?_set_eq_of_lt a h]

theorem getD_set_ne {α : Type} (l : List α) {i j : Nat} (a d : α) (h : i ≠ j) :
    (l.set i a).getD j d = l.getD j d := by
  simp [List.getD_eq_getElem?_getD, List.getElem?_set_ne h]

theorem getD_oob {α : Type} (l : List α) {i : Nat} (d : α) (h : l.length ≤ i) :
    l.getD i d = d := by
  simp [List.getD_eq_getElem?_getD, List.getElem?_eq_none h]

theorem getD_mem {α : Type} (l : List α) {i : Nat} (d : α) (h : i < l.length) :
    l.getD i d ∈ l := by
  rw [List.getD_eq_getElem?_getD, List.getElem?_eq_getElem h]
  exact List.getElem_mem h

theorem getDesc_setDesc_self (s : BufState) (i : Nat) (d : BufDesc)
    (h : i < s.bufDescTable.length) : (s.setDesc i d).getDesc i = d := by
  show (s.bufDescTable.set i d).getD i emptyDesc = d
  exact getD_set_self _ _ _ _ h

theorem getDesc_setDesc_ne (s : BufState) {i j : Nat} (d : BufDesc) (h : i ≠ j) :
    (s.setDesc i d).getDesc j = s.getDesc j := by
  show (s.bufDescTable.set i d).getD j emptyDesc = s.bufDescTable.getD j emptyDesc
  exact getD_set_ne _ _ _ h

theorem lt_of_getDesc_valid {s : BufState} {i : Nat}
    (h : (s.getDesc i).valid = true) : i < s.bufDescTable.length := by
  by_contra hc
  rw [BufState.getDesc, getD_oob _ _ (Nat.le_of_not_lt hc)] at h
  simp [emptyDesc] at h

theorem lt_of_getDesc_dirty {s : BufState} {i : Nat}
    (h : (s.getDesc i).dirty = true) : i < s.bufDescTable.length := by
  by_contra hc
  rw [BufState.getDesc, getD_oob _ _ (Nat.le_of_not_lt hc)] at h
  simp [emptyDesc] at h

theorem sameExceptRefbit_refl (d : BufDesc) : sameExceptRefbit d d := by
  simp [sameExceptRefbit]

theorem sameExceptRefbit_trans {d e f : BufDesc}
    (h1 : sameExceptRefbit d e) (h2 : sameExceptRefbit e f) : sameExceptRefbit d f := by
  obtain ⟨a1, a2, a3, a4, a5, a6⟩ := h1
  obtain ⟨b1, b2, b3, b4, b5, b6⟩ := h2
  exact ⟨a1.trans b1, a2.trans b2, a3.trans b3, a4.trans b4, a5.trans b5, a6.trans b6⟩

theorem pins_getDesc {s : BufState} (hp : pinsNonNeg s) (i : Nat) :
    0 ≤ (s.getDesc i).pinCnt := by
  by_cases h : i < s.bufDescTable.length
  · exact hp _ (getD_mem _ _ h)
  · rw [BufState.getDesc, getD_oob _ _ (Nat.le_of_not_lt h)]
    simp [emptyDesc]

theorem pins_setDesc {s : BufState} {d : BufDesc} (hp : pinsNonNeg s)
    (hd : 0 ≤ d.pinCnt) (i : Nat) : pinsNonNeg (s.setDesc i d) := by
  intro x hx
  rcases List.mem_or_eq_of_mem_set hx with h | h
  · exact hp _ h
  · rw [h]; exact hd

theorem hashLookup_hashRemove_self (ht : List ((Nat × Nat) × Nat)) (f p : Nat) :
    hashLookup (hashRemove ht f p) f p = none := by
  have h : List.find? (fun e => decide (e.fst = (f, p))) (hashRemove ht f p) = none := by
    rw [List.find?_eq_none]
    intro e he
    have := (List.mem_filter.mp he).2
    simpa [decide_eq_true_eq] using this
  rw [hashLookup, h]
  rfl

theorem mem_of_mem_hashRemove {ht : List ((Nat × Nat) × Nat)} {f p : Nat}
    {e : (Nat × Nat) × Nat} (h : e ∈ hashRemove ht f p) : e ∈ ht :=
  List.mem_of_mem_filter h

theorem key_ne_of_mem_hashRemove {ht : List ((Nat × Nat) × Nat)} {f p : Nat}
    {e : (Nat × Nat) × Nat} (h : e ∈ hashRemove ht f p) : e.fst ≠ (f, p) := by
  have := (List.mem_filter.mp h).2
  simpa [decide_eq_true_eq] using this

theorem diskRead_writePage_self (dk : DiskState) (f : Nat) (pg : Page) :
    diskRead (dk.writePage f pg) f pg.page_number = some pg.data := by
  simp [diskRead, DiskState.writePage, List.find?]

theorem getDesc_setDesc_oob (s : BufState) (i : Nat) (d : BufDesc)
    (h : s.bufDescTable.length ≤ i) : (s.setDesc i d).getDesc i = emptyDesc := by
  show (s.bufDescTable.set i d).getD i emptyDesc = emptyDesc
  apply getD_oob
  rw [List.length_set]
  exact h

theorem getDesc_oob (s : BufState) {i : Nat} (h : s.bufDescTable.length ≤ i) :
    s.getDesc i = emptyDesc :=
  getD_oob _ _ h

theorem sameExceptRefbit_clearRefbitAt (s : BufState) (i j : Nat) :
    sameExceptRefbit (s.getDesc j) ((clearRefbitAt s i).getDesc j) := by
  by_cases hij : i = j
  · subst hij
    by_cases hlt : i < s.bufDescTable.length
    · rw [clearRefbitAt, getDesc_setDesc_self _ _ _ hlt]
      simp [sameExceptRefbit]
    · rw [clearRefbitAt, getDesc_setDesc_oob _ _ _ (Nat.le_of_not_lt hlt),
          getDesc_oob _ (Nat.le_of_not_lt hlt)]
      exact sameExceptRefbit_refl _
  · rw [clearRefbitAt, getDesc_setDesc_ne _ _ hij]
    exact sameExceptRefbit_refl _

theorem length_clearRefbitAt (s : BufState) (i : Nat) :
    (clearRefbitAt s i).bufDescTable.length = s.bufDescTable.length := by
  show (s.bufDescTable.set i _).length = _
  exact List.length_set ..

theorem evictFrame_advCount (s : BufState) (i : Nat) :
    (evictFrame s i).advCount = s.advCount := by
  rw [evictFrame]
  by_cases hd : (s.getDesc i).dirty = true <;>
    simp [hd, BufState.writeBackFrame, BufState.setDesc]

theorem evictFrame_clockHand (s : BufState) (i : Nat) :
    (evictFrame s i).clockHand = s.clockHand := by
  rw [evictFrame]
  by_cases hd : (s.getDesc i).dirty = true <;>
    simp [hd, BufState.writeBackFrame, BufState.setDesc]

theorem evictFrame_numBufs (s : BufState) (i : Nat) :
    (evictFrame s i).numBufs = s.numBufs := by
  rw [evictFrame]
  by_cases hd : (s.getDesc i).dirty = true <;>
    simp [hd, BufState.writeBackFrame, BufState.setDesc]

theorem evictFrame_bufPool (s : BufState) (i : Nat) :
    (evictFrame s i).bufPool = s.bufPool := by
  rw [evictFrame]
  by_cases hd : (s.getDesc i).dirty = true <;>
    simp [hd, BufState.writeBackFrame, BufState.setDesc]

theorem evictFrame_hashTable (s : BufState) (i : Nat) :
    (evictFrame s i).hashTable
      = hashRemove s.hashTable (((s.getDesc i).file).getD 0) ((s.getDesc i).pageNo) := by
  rw [evictFrame]
  by_cases hd : (s.getDesc i).dirty = true <;>
    simp [hd, BufState.writeBackFrame, BufState.setDesc]

theorem evictFrame_disk_dirty (s : BufState) (i : Nat)
    (hd : (s.getDesc i).dirty = true) :
    (evictFrame s i).disk
      = s.disk.writePage (((s.getDesc i).file).getD 0) (s.bufPool.getD i emptyPage) := by
  rw [evictFrame]
  simp [hd, BufState.writeBackFrame, BufState.setDesc]

theorem evictFrame_disk_clean (s : BufState) (i : Nat)
    (hd : (s.getDesc i).dirty = false) :
    (evictFrame s i).disk = s.disk := by
  rw [evictFrame]
  simp [hd, BufState.writeBackFrame, BufState.setDesc]

theorem evictFrame_getDesc_self (s : BufState) (i : Nat)
    (h : i < s.bufDescTable.length) :
    (evictFrame s i).getDesc i = (s.getDesc i).Clear := by
  rw [evictFrame]
  by_cases hd : (s.getDesc i).dirty = true <;>
  · simp only [hd]
    apply getDesc_setDesc_self
    simp [BufState.writeBackFrame, h]

/-- On the exhaustion path the sweep only cleared reference bits: the
error is `BufferExceededException`, the index, disk, pool and every
non-`refbit` descriptor field are untouched, and the sweep advanced the
cursor exactly once per fuel unit. -/
theorem allocBufLoop_error {m : Nat} {s t : BufState} {e : BufException}
    (h : allocBufLoop m s = (.error e, t)) :
    e = .bufferExceeded ∧ t.hashTable = s.hashTable ∧ t.disk = s.disk ∧
    t.bufPool = s.bufPool ∧ t.numBufs = s.numBufs ∧
    t.bufDescTable.length = s.bufDescTable.length ∧
    t.advCount = s.advCount + m ∧
    (∀ j, sameExceptRefbit (s.getDesc j) (t.getDesc j)) := by
  induction m generalizing s with
  | zero =>
    rw [allocBufLoop] at h
    obtain ⟨he, ht⟩ := Prod.mk.injEq .. ▸ h
    injection he.symm with he2
    subst ht
    exact ⟨he2.symm ▸ rfl, rfl, rfl, rfl, rfl, rfl, rfl, fun j => sameExceptRefbit_refl _⟩
  | succ m ih =>
    rw [allocBufLoop] at h
    by_cases hv : (s.getDesc s.clockHand).valid = false
    · simp [hv] at h
    · by_cases hr : (s.getDesc s.clockHand).refbit = true
      · simp only [hv, hr, if_true, if_false, if_neg hv, if_pos hr] at h
        obtain ⟨h1, h2, h3, h4, h5, h6, h7, h8⟩ := ih h
        refine ⟨h1, h2, h3, h4, h5, ?_, ?_, ?_⟩
        · rw [h6]
          exact length_clearRefbitAt s s.clockHand
        · have : (advanceClock (clearRefbitAt s s.clockHand)).advCount
              = s.advCount + 1 := rfl
          omega
        · intro j
          exact sameExceptRefbit_trans (sameExceptRefbit_clearRefbitAt s s.clockHand j) (h8 j)
      · by_cases hp : 0 < (s.getDesc s.clockHand).pinCnt
        · simp only [hv, hr, hp, if_neg hv, if_neg hr, if_pos hp] at h
          obtain ⟨h1, h2, h3, h4, h5, h6, h7, h8⟩ := ih h
          refine ⟨h1, h2, h3, h4, h5, h6, ?_, h8⟩
          have : (advanceClock s).advCount = s.advCount + 1 := rfl
          omega
        · simp [hv, hr, hp] at h

theorem evictFrame_bufDescTable (s : BufState) (i : Nat) :
    (evictFrame s i).bufDescTable = s.bufDescTable.set i ((s.getDesc i).Clear) := by
  rw [evictFrame]
  by_cases hd : (s.getDesc i).dirty = true <;>
    simp [hd, BufState.writeBackFrame, BufState.setDesc]

theorem allocBufLoop_step_free (m : Nat) (s : BufState)
    (hv : (s.getDesc s.clockHand).valid = false) :
    allocBufLoop (m + 1) s = (.ok (s.clockHand, s.getDesc s.clockHand), s) := by
  rw [allocBufLoop, if_pos hv]

theorem allocBufLoop_step_refbit (m : Nat) (s : BufState)
    (hv : (s.getDesc s.clockHand).valid = true)
    (hr : (s.getDesc s.clockHand).refbit = true) :
    allocBufLoop (m + 1) s = allocBufLoop m (advanceClock (clearRefbitAt s s.clockHand)) := by
  rw [allocBufLoop, if_neg (by simp [hv]), if_pos hr]

theorem allocBufLoop_step_pinned (m : Nat) (s : BufState)
    (hv : (s.getDesc s.clockHand).valid = true)
    (hr : (s.getDesc s.clockHand).refbit = false)
    (hp : 0 < (s.getDesc s.clockHand).pinCnt) :
    allocBufLoop (m + 1) s = allocBufLoop m (advanceClock s) := by
  rw [allocBufLoop, if_neg (by simp [hv]), if_neg (by simp [hr]), if_pos hp]

theorem allocBufLoop_step_victim (m : Nat) (s : BufState)
    (hv : (s.getDesc s.clockHand).valid = true)
    (hr : (s.getDesc s.clockHand).refbit = false)
    (hp : ¬ 0 < (s.getDesc s.clockHand).pinCnt) :
    allocBufLoop (m + 1) s
      = (.ok (s.clockHand, s.getDesc s.clockHand), evictFrame s s.clockHand) := by
  rw [allocBufLoop, if_neg (by simp [hv]), if_neg (by simp [hr]), if_neg hp]

/-- The sweep advances the cursor at most once per fuel unit. -/
theorem allocBufLoop_advCount (m : Nat) (s : BufState) :
    (allocBufLoop m s).snd.advCount ≤ s.advCount + m := by
  induction m generalizing s with
  | zero => simp [allocBufLoop]
  | succ m ih =>
    by_cases hv : (s.getDesc s.clockHand).valid = true
    · by_cases hr : (s.getDesc s.clockHand).refbit = true
      · rw [allocBufLoop_step_refbit m s hv hr]
        have h := ih (advanceClock (clearRefbitAt s s.clockHand))
        have h2 : (advanceClock (clearRefbitAt s s.clockHand)).advCount = s.advCount + 1 := rfl
        omega
      · have hr2 : (s.getDesc s.clockHand).refbit = false := by
          revert hr; cases (s.getDesc s.clockHand).refbit <;> simp
        by_cases hp : 0 < (s.getDesc s.clockHand).pinCnt
        · rw [allocBufLoop_step_pinned m s hv hr2 hp]
          have h := ih (advanceClock s)
          have h2 : (advanceClock s).advCount = s.advCount + 1 := rfl
          omega
        · rw [allocBufLoop_step_victim m s hv hr2 hp]
          show (evictFrame s s.clockHand).advCount ≤ s.advCount + (m + 1)
          rw [evictFrame_advCount]
          omega
    · have hv2 : (s.getDesc s.clockHand).valid = false := by
        revert hv; cases (s.getDesc s.clockHand).valid <;> simp
      rw [allocBufLoop_step_free m s hv2]
      show s.advCount ≤ s.advCount + (m + 1)
      omega

/-- The sweep keeps the cursor inside `[0, numBufs)` and does not change
the capacity. -/
theorem allocBufLoop_clockHand (m : Nat) (s : BufState) (h : s.clockHand < s.numBufs) :
    (allocBufLoop m s).snd.clockHand < s.numBufs ∧
    (allocBufLoop m s).snd.numBufs = s.numBufs := by
  induction m generalizing s with
  | zero => simpa [allocBufLoop] using h
  | succ m ih =>
    have hpos : 0 < s.numBufs := Nat.lt_of_le_of_lt (Nat.zero_le _) h
    by_cases hv : (s.getDesc s.clockHand).valid = true
    · by_cases hr : (s.getDesc s.clockHand).refbit = true
      · rw [allocBufLoop_step_refbit m s hv hr]
        exact ih (advanceClock (clearRefbitAt s s.clockHand)) (Nat.mod_lt _ hpos)
      · have hr2 : (s.getDesc s.clockHand).refbit = false := by
          revert hr; cases (s.getDesc s.clockHand).refbit <;> simp
        by_cases hp : 0 < (s.getDesc s.clockHand).pinCnt
        · rw [allocBufLoop_step_pinned m s hv hr2 hp]
          exact ih (advanceClock s) (Nat.mod_lt _ hpos)
        · rw [allocBufLoop_step_victim m s hv hr2 hp]
          refine ⟨?_, ?_⟩
          · rw [evictFrame_clockHand]
            exact h
          · rw [evictFrame_numBufs]
    · have hv2 : (s.getDesc s.clockHand).valid = false := by
        revert hv; cases (s.getDesc s.clockHand).valid <;> simp
      rw [allocBufLoop_step_free m s hv2]
      exact ⟨h, rfl⟩

/-- The sweep never makes a pin count negative. -/
theorem allocBufLoop_pins (m : Nat) (s : BufState) (hp : pinsNonNeg s) :
    pinsNonNeg (allocBufLoop m s).snd := by
  induction m generalizing s with
  | zero => simpa [allocBufLoop] using hp
  | succ m ih =>
    by_cases hv : (s.getDesc s.clockHand).valid = true
    · by_cases hr : (s.getDesc s.clockHand).refbit = true
      · rw [allocBufLoop_step_refbit m s hv hr]
        apply ih
        show pinsNonNeg
          (s.setDesc s.clockHand { s.getDesc s.clockHand with refbit := false })
        refine pins_setDesc hp ?_ s.clockHand
        exact pins_getDesc hp s.clockHand
      · have hr2 : (s.getDesc s.clockHand).refbit = false := by
          revert hr; cases (s.getDesc s.clockHand).refbit <;> simp
        by_cases hpin : 0 < (s.getDesc s.clockHand).pinCnt
        · rw [allocBufLoop_step_pinned m s hv hr2 hpin]
          exact ih (advanceClock s) hp
        · rw [allocBufLoop_step_victim m s hv hr2 hpin]
          intro x hx
          rw [evictFrame_bufDescTable] at hx
          rcases List.mem_or_eq_of_mem_set hx with hmem | heq
          · exact hp _ hmem
          · rw [heq]
            simp [BufDesc.Clear]
    · have hv2 : (s.getDesc s.clockHand).valid = false := by
        revert hv; cases (s.getDesc s.clockHand).valid <;> simp
      rw [allocBufLoop_step_free m s hv2]
      exact hp

/-- If every frame is occupied and pinned, the sweep always exhausts its
fuel and reports `BufferExceededException`. -/
theorem allocBufLoop_allPinned (m : Nat) (s : BufState)
    (hlen : s.bufDescTable.length = s.numBufs)
    (hall : ∀ x ∈ s.bufDescTable, x.valid = true ∧ 0 < x.pinCnt)
    (hch : s.clockHand < s.numBufs) :
    (allocBufLoop m s).fst = .error .bufferExceeded := by
  induction m generalizing s with
  | zero => rw [allocBufLoop]
  | succ m ih =>
    have hmem : s.getDesc s.clockHand ∈ s.bufDescTable :=
      getD_mem _ _ (hlen ▸ hch)
    obtain ⟨hv, hpin⟩ := hall _ hmem
    have hpos : 0 < s.numBufs := Nat.lt_of_le_of_lt (Nat.zero_le _) hch
    by_cases hr : (s.getDesc s.clockHand).refbit = true
    · rw [allocBufLoop_step_refbit m s hv hr]
      apply ih
      · show (clearRefbitAt s s.clockHand).bufDescTable.length = s.numBufs
        rw [length_clearRefbitAt]
        exact hlen
      · intro x hx
        have hx2 : x ∈ s.bufDescTable.set s.clockHand
            { s.getDesc s.clockHand with refbit := false } := hx
        rcases List.mem_or_eq_of_mem_set hx2 with h | h
        · exact hall _ h
        · subst h
          exact ⟨hv, hpin⟩
      · exact Nat.mod_lt _ hpos
    · have hr2 : (s.getDesc s.clockHand).refbit = false := by
        revert hr; cases (s.getDesc s.clockHand).refbit <;> simp
      rw [allocBufLoop_step_pinned m s hv hr2 hpin]
      exact ih (advanceClock s) hlen hall (Nat.mod_lt _ hpos)

/-- When the sweep stops at frame `f` with observed descriptor `d`:
`d` is frame `f`'s descriptor up to earlier refbit clearing; and if the
selected frame was occupied (an eviction), then at the moment of selection
its refbit was clear and its pin count not positive, the frame is cleared
afterwards, its identity entry is gone, and the backend observed the
write-back of the frame's pool page exactly when the frame was dirty. -/
theorem allocBufLoop_ok {m : Nat} {s t : BufState} {f : Nat} {d : BufDesc}
    (h : allocBufLoop m s = (.ok (f, d), t)) :
    sameExceptRefbit (s.getDesc f) d ∧ t.bufPool = s.bufPool ∧
    (d.valid = true →
      d.refbit = false ∧ ¬ 0 < d.pinCnt ∧
      t.getDesc f = d.Clear ∧
      hashLookup t.hashTable ((d.file).getD 0) d.pageNo = none ∧
      (∀ e ∈ t.hashTable, e ∈ s.hashTable) ∧
      (d.dirty = true →
        t.disk.writes = (((d.file).getD 0), s.bufPool.getD f emptyPage) :: s.disk.writes ∧
        diskRead t.disk ((d.file).getD 0) ((s.bufPool.getD f emptyPage).page_number)
          = some ((s.bufPool.getD f emptyPage).data)) ∧
      (d.dirty = false → t.disk = s.disk)) := by
  induction m generalizing s with
  | zero => simp [allocBufLoop] at h
  | succ m ih =>
    by_cases hv : (s.getDesc s.clockHand).valid = true
    · by_cases hr : (s.getDesc s.clockHand).refbit = true
      · rw [allocBufLoop_step_refbit m s hv hr] at h
        have ihh := @ih (advanceClock (clearRefbitAt s s.clockHand)) h
        exact ⟨sameExceptRefbit_trans (sameExceptRefbit_clearRefbitAt s s.clockHand f) ihh.1,
               ihh.2.1, ihh.2.2⟩
      · have hr2 : (s.getDesc s.clockHand).refbit = false := by
          revert hr; cases (s.getDesc s.clockHand).refbit <;> simp
        by_cases hp : 0 < (s.getDesc s.clockHand).pinCnt
        · rw [allocBufLoop_step_pinned m s hv hr2 hp] at h
          exact @ih (advanceClock s) h
        · rw [allocBufLoop_step_victim m s hv hr2 hp] at h
          injection h with h1 h2
          injection h1 with h1
          injection h1 with hf hd
          subst hf
          subst hd
          subst h2
          refine ⟨sameExceptRefbit_refl _, evictFrame_bufPool s s.clockHand, fun hvv => ?_⟩
          have hlt : s.clockHand < s.bufDescTable.length := lt_of_getDesc_valid hvv
          refine ⟨hr2, hp, evictFrame_getDesc_self s s.clockHand hlt, ?_, ?_, ?_, ?_⟩
          · rw [evictFrame_hashTable]
            exact hashLookup_hashRemove_self ..
          · intro e he
            rw [evictFrame_hashTable] at he
            exact mem_of_mem_hashRemove he
          · intro hdirty
            rw [evictFrame_disk_dirty s s.clockHand hdirty]
            exact ⟨rfl, diskRead_writePage_self ..⟩
          · intro hclean
            exact evictFrame_disk_clean s s.clockHand hclean
    · have hv2 : (s.getDesc s.clockHand).valid = false := by
        revert hv; cases (s.getDesc s.clockHand).valid <;> simp
      rw [allocBufLoop_step_free m s hv2] at h
      injection h with h1 h2
      injection h1 with h1
      injection h1 with hf hd
      subst hf
      subst hd
      subst h2
      refine ⟨sameExceptRefbit_refl _, rfl, fun hvv => ?_⟩
      rw [hv2] at hvv
      exact Bool.noConfusion hvv


theorem allocBuf_def (s : BufState) :
    allocBuf s = ((allocBufG s).fst.map (fun x => x.fst), (allocBufG s).snd) := rfl

theorem allocBuf_fst_error {s : BufState} {e : BufException}
    (h : (allocBuf s).fst = .error e) : (allocBufG s).fst = .error e := by
  have h2 : (allocBufG s).fst.map (fun x => x.fst) = .error e := h
  rcases hg : (allocBufG s).fst with e2 | x
  · rw [hg] at h2
    simpa [Except.map] using h2
  · rw [hg] at h2
    simp [Except.map] at h2

theorem allocBuf_fst_ok {s : BufState} {g : Nat}
    (h : (allocBuf s).fst = .ok g) : ∃ d, (allocBufG s).fst = .ok (g, d) := by
  have h2 : (allocBufG s).fst.map (fun x => x.fst) = .ok g := h
  rcases hg : (allocBufG s).fst with e2 | x
  · rw [hg] at h2
    simp [Except.map] at h2
  · rw [hg] at h2
    simp only [Except.map, Except.ok.injEq] at h2
    exact ⟨x.snd, by rw [← h2]⟩

theorem readPage_hit {s : BufState} {file pageNo fr : Nat}
    (hl : hashLookup s.hashTable file pageNo = some fr) :
    readPage s file pageNo = (.ok fr, readPageHit s fr) := by
  simp [readPage, hl]

theorem readPage_miss_error {s s1 : BufState} {file pageNo : Nat} {e : BufException}
    (hl : hashLookup s.hashTable file pageNo = none)
    (ha : allocBuf s = (.error e, s1)) :
    readPage s file pageNo = (.error e, s1) := by
  simp [readPage, hl, ha]

theorem readPage_miss_nodisk {s s1 : BufState} {file pageNo g : Nat}
    (hl : hashLookup s.hashTable file pageNo = none)
    (ha : allocBuf s = (.ok g, s1))
    (hd : diskRead s1.disk file pageNo = none) :
    readPage s file pageNo = (.error .invalidPage, s1) := by
  simp [readPage, hl, ha, hd]

theorem readPage_miss_fill {s s1 : BufState} {file pageNo g v : Nat}
    (hl : hashLookup s.hashTable file pageNo = none)
    (ha : allocBuf s = (.ok g, s1))
    (hd : diskRead s1.disk file pageNo = some v) :
    readPage s file pageNo = (.ok g, readPageFill s1 file pageNo g v) := by
  simp [readPage, hl, ha, hd]

theorem unPinPage_missing {s : BufState} {file pageNo : Nat} {m : Bool}
    (hl : hashLookup s.hashTable file pageNo = none) :
    unPinPage s file pageNo m = (.ok (), s) := by
  simp [unPinPage, hl]

theorem unPinPage_overRelease {s : BufState} {file pageNo fr : Nat} {m : Bool}
    (hl : hashLookup s.hashTable file pageNo = some fr)
    (hpc : (s.getDesc fr).pinCnt ≤ 0) :
    unPinPage s file pageNo m = (.error (.pageNotPinned file pageNo fr), s) := by
  simp [unPinPage, hl, hpc]

theorem unPinPage_found {s : BufState} {file pageNo fr : Nat} {m : Bool}
    (hl : hashLookup s.hashTable file pageNo = some fr)
    (hpc : ¬ (s.getDesc fr).pinCnt ≤ 0) :
    unPinPage s file pageNo m =
      (.ok (),
       if m = true then
         (s.setDesc fr { s.getDesc fr with pinCnt := (s.getDesc fr).pinCnt - 1 }).setDesc fr
           { (s.setDesc fr { s.getDesc fr with
               pinCnt := (s.getDesc fr).pinCnt - 1 }).getDesc fr with dirty := true }
       else s.setDesc fr { s.getDesc fr with pinCnt := (s.getDesc fr).pinCnt - 1 }) := by
  simp [unPinPage, hl, hpc]

theorem allocPage_error {s : BufState} {file : Nat} {e : BufException} {s1 : BufState}
    (ha : allocBuf { s with disk := (s.disk.allocatePage file).snd } = (.error e, s1)) :
    allocPage s file = (.error e, s1) := by
  simp [allocPage, ha]

theorem allocPage_ok {s : BufState} {file g : Nat} {s1 : BufState}
    (ha : allocBuf { s with disk := (s.disk.allocatePage file).snd } = (.ok g, s1)) :
    allocPage s file =
      (.ok ((s.disk.allocatePage file).fst.page_number, g),
       allocPageFill s1 file g (s.disk.allocatePage file).fst) := by
  simp [allocPage, ha]

/-- `unPinPage` preserves pin-count non-negativity. -/
theorem unPinPage_pins {s : BufState} (f p : Nat) (m : Bool) (hp : pinsNonNeg s) :
    pinsNonNeg (unPinPage s f p m).snd := by
  rcases hl : hashLookup s.hashTable f p with _ | fr
  · rw [unPinPage_missing hl]
    exact hp
  · by_cases hpc : (s.getDesc fr).pinCnt ≤ 0
    · rw [unPinPage_overRelease hl hpc]
      exact hp
    · rw [unPinPage_found hl hpc]
      have h1 : pinsNonNeg
          (s.setDesc fr { s.getDesc fr with pinCnt := (s.getDesc fr).pinCnt - 1 }) := by
        refine pins_setDesc hp ?_ fr
        show (0 : Int) ≤ (s.getDesc fr).pinCnt - 1
        have := pins_getDesc hp fr
        simp only [Int.not_le] at hpc
        omega
      by_cases hm : m = true
      · simp only [if_pos hm]
        refine pins_setDesc h1 ?_ fr
        exact pins_getDesc h1 fr
      · simp only [if_neg hm]
        exact h1

/-- `readPage` preserves pin-count non-negativity. -/
theorem readPage_pins {s : BufState} (f p : Nat) (hp : pinsNonNeg s) :
    pinsNonNeg (readPage s f p).snd := by
  rcases hl : hashLookup s.hashTable f p with _ | fr
  · rcases ha : allocBuf s with ⟨r, s1⟩
    have hs1 : pinsNonNeg s1 := by
      have hq := allocBufLoop_pins (2 * s.numBufs) (advanceClock s) hp
      have he : (allocBufLoop (2 * s.numBufs) (advanceClock s)).snd = s1 :=
        congrArg Prod.snd ha
      rwa [he] at hq
    rcases r with e | g
    · rw [readPage_miss_error hl ha]
      exact hs1
    · rcases hd : diskRead s1.disk f p with _ | v
      · rw [readPage_miss_nodisk hl ha hd]
        exact hs1
      · rw [readPage_miss_fill hl ha hd]
        show pinsNonNeg (readPageFill s1 f p g v)
        rw [readPageFill]
        refine pins_setDesc ?_ ?_ g
        · exact hs1
        · show (0 : Int) ≤ 1
          omega
  · rw [readPage_hit hl]
    show pinsNonNeg (readPageHit s fr)
    rw [readPageHit]
    have h1 : pinsNonNeg
        (s.setDesc fr { s.getDesc fr with pinCnt := (s.getDesc fr).pinCnt + 1 }) := by
      refine pins_setDesc hp ?_ fr
      show (0 : Int) ≤ (s.getDesc fr).pinCnt + 1
      have := pins_getDesc hp fr
      omega
    refine pins_setDesc h1 ?_ fr
    exact pins_getDesc h1 fr

/-- Every fetch/release sequence preserves pin-count non-negativity. -/
theorem runOps_pins (ops : List PoolOp) (s : BufState) (hp : pinsNonNeg s) :
    pinsNonNeg (runOps s ops) := by
  induction ops generalizing s with
  | nil => exact hp
  | cons o ops ih =>
    have h1 : pinsNonNeg (applyOp s o) := by
      cases o with
      | read f p => exact readPage_pins f p hp
      | unpin f p m => exact unPinPage_pins f p m hp
    exact ih _ h1

/-! ### Example states used by witnesses and counterexamples -/

/-- A backend disk holding four pages of file 1. -/
def exDisk : DiskState :=
  { contents := [((1, 1), 10), ((1, 2), 20), ((1, 3), 30), ((1, 4), 40)],
    nextPageTable := [], writes := [] }

/-- A descriptor for a resident, unpinned, unreferenced page (file 1,
page 1). -/
def exVictimDesc : BufDesc :=
  { frameNo := 0, valid := true, file := some 1, pageNo := 1,
    pinCnt := 0, dirty := false, refbit := false }

/-- A one-frame pool holding page (1,1) unpinned and evictable. -/
def exVictim1 : BufState :=
  { numBufs := 1, bufDescTable := [exVictimDesc],
    bufPool := [{ page_number := 1, data := 10 }],
    hashTable := [((1, 1), 0)], clockHand := 0, disk := exDisk, advCount := 0 }

/-- A one-frame pool whose only frame is occupied, pinned and recently
referenced. -/
def exPinned1 : BufState :=
  { numBufs := 1,
    bufDescTable := [{ frameNo := 0, valid := true, file := some 1, pageNo := 1,
                       pinCnt := 1, dirty := false, refbit := true }],
    bufPool := [{ page_number := 1, data := 10 }],
    hashTable := [((1, 1), 0)], clockHand := 0, disk := exDisk, advCount := 0 }

/-- A one-frame pool holding a pinned dirty page (1,1). -/
def exDirty1 : BufState :=
  { numBufs := 1,
    bufDescTable := [{ frameNo := 0, valid := true, file := some 1, pageNo := 1,
                       pinCnt := 1, dirty := true, refbit := true }],
    bufPool := [{ page_number := 1, data := 99 }],
    hashTable := [((1, 1), 0)], clockHand := 0, disk := exDisk, advCount := 0 }

/-! ### C1 -/

/-- C1: for any pool state with non-negative pin counts, whenever the
`allocBuf` sweep selects an occupied frame as victim, the descriptor it
observed at the moment of selection has `pinCnt = 0` and `refbit = false`;
moreover a frame whose refbit is set at the cursor is never selected on
that visit — the sweep clears the refbit and moves past it, so the frame
can only be chosen on a later visit. -/
theorem c1_victim_unpinned_unreferenced (s : BufState) (f : Nat) (d : BufDesc)
    (hpins : pinsNonNeg s)
    (hsel : (allocBufG s).fst = .ok (f, d))
    (hocc : d.valid = true) :
    d.pinCnt = 0 ∧ d.refbit = false ∧
    (∀ t : BufState, ∀ m : Nat,
      (t.getDesc t.clockHand).valid = true →
      (t.getDesc t.clockHand).refbit = true →
      allocBufLoop (m + 1) t = allocBufLoop m (advanceClock (clearRefbitAt t t.clockHand))) := by
  have hpair : allocBufLoop (2 * s.numBufs) (advanceClock s)
      = (.ok (f, d), (allocBufG s).snd) := by
    have h0 : allocBufG s = ((allocBufG s).fst, (allocBufG s).snd) := rfl
    rw [hsel] at h0
    exact h0
  obtain ⟨hsame, _, hval⟩ := allocBufLoop_ok hpair
  obtain ⟨hrb, hpc, _⟩ := hval hocc
  refine ⟨?_, hrb, fun t m h1 h2 => allocBufLoop_step_refbit m t h1 h2⟩
  have hpin_eq : (s.getDesc f).pinCnt = d.pinCnt := hsame.2.2.2.2.1
  have h0 := pins_getDesc hpins f
  omega

/-- Witness for C1 on a concrete one-frame pool holding an evictable
occupied page. -/
theorem c1_victim_unpinned_unreferenced_witness :
    pinsNonNeg exVictim1 ∧ (allocBufG exVictim1).fst = .ok (0, exVictimDesc) ∧
    exVictimDesc.valid = true ∧
    exVictimDesc.pinCnt = 0 ∧ exVictimDesc.refbit = false := by
  have h := c1_victim_unpinned_unreferenced exVictim1 0 exVictimDesc
    (by decide) rfl rfl
  exact ⟨by decide, rfl, rfl, h.1, h.2.1⟩

/-! ### C2 -/

/-- C2 (amended): if every frame is occupied and pinned, a fetch of a
non-resident page raises `BufferExceededException`, and the only
descriptor mutation the failed fetch can make is clearing reference bits
during the sweep: every other descriptor field of every frame, the
identity index, the page pool and the backend are unchanged. (As stated —
"no frame descriptor is mutated" — the claim is false, because the sweep
clears refbits before detecting exhaustion; see `c2_counterexample`.) -/
theorem c2_pool_exhausted_refbits_only (s : BufState) (fid p : Nat)
    (hn : 0 < s.numBufs)
    (hlen : s.bufDescTable.length = s.numBufs)
    (hall : ∀ x ∈ s.bufDescTable, x.valid = true ∧ 0 < x.pinCnt)
    (hmiss : hashLookup s.hashTable fid p = none) :
    (readPage s fid p).fst = .error .bufferExceeded ∧
    (readPage s fid p).snd.hashTable = s.hashTable ∧
    (readPage s fid p).snd.bufPool = s.bufPool ∧
    (readPage s fid p).snd.disk = s.disk ∧
    (∀ j, sameExceptRefbit (s.getDesc j) ((readPage s fid p).snd.getDesc j)) := by
  have hch : (advanceClock s).clockHand < (advanceClock s).numBufs := Nat.mod_lt _ hn
  have herr : (allocBufLoop (2 * s.numBufs) (advanceClock s)).fst
      = .error .bufferExceeded :=
    allocBufLoop_allPinned (2 * s.numBufs) (advanceClock s) hlen hall hch
  have herr2 : (allocBufG s).fst = .error .bufferExceeded := herr
  have hg : allocBufG s = (.error .bufferExceeded, (allocBufG s).snd) := by
    have h0 : allocBufG s = ((allocBufG s).fst, (allocBufG s).snd) := rfl
    rw [herr2] at h0
    exact h0
  obtain ⟨_, hhash, hdisk, hpool, _, _, _, hsame⟩ := allocBufLoop_error hg
  have ha : allocBuf s = (.error .bufferExceeded, (allocBufG s).snd) := by
    rw [allocBuf_def, herr2]
    rfl
  rw [readPage_miss_error hmiss ha]
  exact ⟨rfl, hhash, hpool, hdisk, hsame⟩

/-- Witness for the amended C2 on a concrete fully pinned one-frame
pool. -/
theorem c2_pool_exhausted_refbits_only_witness :
    (0 < exPinned1.numBufs ∧
     (∀ x ∈ exPinned1.bufDescTable, x.valid = true ∧ 0 < x.pinCnt) ∧
     hashLookup exPinned1.hashTable 5 7 = none) ∧
    (readPage exPinned1 5 7).fst = .error .bufferExceeded ∧
    (readPage exPinned1 5 7).snd.hashTable = exPinned1.hashTable ∧
    (∀ j, sameExceptRefbit (exPinned1.getDesc j) ((readPage exPinned1 5 7).snd.getDesc j)) := by
  have h := c2_pool_exhausted_refbits_only exPinned1 5 7
    (by decide) (by decide) (by decide) (by decide)
  exact ⟨⟨by decide, by decide, by decide⟩, h.1, h.2.1, h.2.2.2.2⟩

/-- C2 as stated is refuted: in a fully occupied and pinned one-frame
pool, fetching a non-resident page raises Pool Exhausted but mutates the
frame's descriptor (its reference bit is cleared by the sweep). -/
theorem c2_counterexample :
    (∀ x ∈ exPinned1.bufDescTable, x.valid = true ∧ 0 < x.pinCnt) ∧
    hashLookup exPinned1.hashTable 5 7 = none ∧
    (readPage exPinned1 5 7).fst = .error .bufferExceeded ∧
    ¬ ((readPage exPinned1 5 7).snd.getDesc 0 = exPinned1.getDesc 0) := by
  exact ⟨by decide, by decide, rfl, by decide⟩

/-! ### C3 -/

/-- C3: along any sequence of fetch (`readPage`) and release
(`unPinPage`) operations, no frame's pin count ever drops below zero; and
releasing a resident page whose pin count is already zero raises
`PageNotPinnedException` instead of decrementing, leaving the whole state
(hence the descriptor) unchanged. -/
theorem c3_pin_never_negative (s : BufState) (ops : List PoolOp)
    (f p : Nat) (m : Bool) (fr : Nat) (hpins : pinsNonNeg s) :
    pinsNonNeg (runOps s ops) ∧
    (hashLookup s.hashTable f p = some fr → (s.getDesc fr).pinCnt = 0 →
      unPinPage s f p m = (.error (.pageNotPinned f p fr), s)) := by
  refine ⟨runOps_pins ops s hpins, fun hl hz => ?_⟩
  exact unPinPage_overRelease hl (by omega)

/-- Witness for C3: a fetch/release sequence on a concrete pool, plus a
concrete over-release that raises and leaves the state unchanged. -/
theorem c3_pin_never_negative_witness :
    pinsNonNeg exVictim1 ∧
    pinsNonNeg (runOps exVictim1 [.read 1 1, .unpin 1 1 false]) ∧
    unPinPage exVictim1 1 1 false = (.error (.pageNotPinned 1 1 0), exVictim1) := by
  have h := c3_pin_never_negative exVictim1 [.read 1 1, .unpin 1 1 false]
    1 1 false 0 (by decide)
  exact ⟨by decide, h.1, h.2 (by decide) (by decide)⟩

/-! ### C6 -/

/-- C6 (amended): `allocBuf` always terminates with either a frame index
or `BufferExceededException` (never any other error); a call makes at
most `2 * numBufs + 1` cursor advances — the one advance issued before
the sweep plus at most one per sweep iteration — and on the exhaustion
path exactly `2 * numBufs + 1`; the cursor advances modulo the capacity,
so it ends inside `[0, numBufs)` whenever the capacity is positive. (The
claim's stated bound of `2 × numBufs` advances is off by one on the
exhaustion path; see `c6_counterexample`.) -/
theorem c6_allocBuf_bounded_sweep (s : BufState) :
    (allocBuf s).snd.advCount ≤ s.advCount + (2 * s.numBufs + 1) ∧
    (∀ e, (allocBuf s).fst = .error e →
      e = .bufferExceeded ∧
      (allocBuf s).snd.advCount = s.advCount + (2 * s.numBufs + 1)) ∧
    (0 < s.numBufs → (allocBuf s).snd.clockHand < s.numBufs) := by
  have hadv := allocBufLoop_advCount (2 * s.numBufs) (advanceClock s)
  have hac : (advanceClock s).advCount = s.advCount + 1 := rfl
  refine ⟨?_, ?_, ?_⟩
  · have h1 : (allocBuf s).snd.advCount ≤ (advanceClock s).advCount + 2 * s.numBufs := hadv
    omega
  · intro e he
    have herr2 : (allocBufG s).fst = .error e := allocBuf_fst_error he
    have hg : allocBufG s = (.error e, (allocBufG s).snd) := by
      have h0 : allocBufG s = ((allocBufG s).fst, (allocBufG s).snd) := rfl
      rw [herr2] at h0
      exact h0
    obtain ⟨he2, _, _, _, _, _, hcnt, _⟩ := allocBufLoop_error hg
    refine ⟨he2, ?_⟩
    have h1 : (allocBuf s).snd.advCount = (advanceClock s).advCount + 2 * s.numBufs := hcnt
    omega
  · intro hn
    have hch : (advanceClock s).clockHand < (advanceClock s).numBufs := Nat.mod_lt _ hn
    exact (allocBufLoop_clockHand (2 * s.numBufs) (advanceClock s) hch).1

/-- Witness for the amended C6 on a concrete fully pinned one-frame
pool: exhaustion after exactly three cursor advances. -/
theorem c6_allocBuf_bounded_sweep_witness :
    (allocBuf exPinned1).fst = .error .bufferExceeded ∧
    (allocBuf exPinned1).snd.advCount = exPinned1.advCount + (2 * exPinned1.numBufs + 1) ∧
    (allocBuf exPinned1).snd.clockHand < exPinned1.numBufs := by
  have h := c6_allocBuf_bounded_sweep exPinned1
  exact ⟨rfl, (h.2.1 _ rfl).2, h.2.2 (by decide)⟩

/-- C6 as stated is refuted: on a one-frame pool whose frame is pinned,
`allocBuf` raises Pool Exhausted only after 3 cursor advances, exceeding
the claimed bound of `2 × numBufs = 2`. -/
theorem c6_counterexample :
    (allocBuf exPinned1).fst = .error .bufferExceeded ∧
    (allocBuf exPinned1).snd.advCount = 3 ∧
    ¬ ((allocBuf exPinned1).snd.advCount ≤ 2 * exPinned1.numBufs) := by
  exact ⟨rfl, rfl, by decide⟩

/-! ### C8 -/

/-- C8: releasing a `(file, pageNo)` pair that is absent from the
identity index is a silent no-op — `unPinPage` returns with no error and
the state is bit-for-bit unchanged; and the only error `unPinPage` ever
raises is the over-release `PageNotPinnedException`, raised exactly when
the pair is found in the index and the frame's pin count is zero (again
leaving the state unchanged). -/
theorem c8_unpin_missing_silent_noop (s : BufState) (f p : Nat) (m : Bool)
    (hpins : pinsNonNeg s) :
    (hashLookup s.hashTable f p = none → unPinPage s f p m = (.ok (), s)) ∧
    (∀ e t, unPinPage s f p m = (.error e, t) →
      ∃ fr, hashLookup s.hashTable f p = some fr ∧ (s.getDesc fr).pinCnt = 0 ∧
        e = .pageNotPinned f p fr ∧ t = s) := by
  constructor
  · intro hl
    exact unPinPage_missing hl
  · intro e t h
    rcases hl : hashLookup s.hashTable f p with _ | fr
    · rw [unPinPage_missing hl] at h
      exact absurd (congrArg Prod.fst h) (by simp)
    · by_cases hpc : (s.getDesc fr).pinCnt ≤ 0
      · rw [unPinPage_overRelease hl hpc] at h
        have h1 := congrArg Prod.fst h
        have h2 := congrArg Prod.snd h
        simp only at h1 h2
        injection h1 with h1
        have hz : (s.getDesc fr).pinCnt = 0 := by
          have := pins_getDesc hpins fr
          omega
        exact ⟨fr, rfl, hz, h1.symm, h2.symm⟩
      · rw [unPinPage_found hl hpc] at h
        have h1 := congrArg Prod.fst h
        by_cases hm : m = true <;> simp [hm] at h1

/-- Witness for C8: on a concrete pool, releasing a never-buffered pair
returns silently with the state unchanged. -/
theorem c8_unpin_missing_silent_noop_witness :
    pinsNonNeg exVictim1 ∧
    hashLookup exVictim1.hashTable 9 9 = none ∧
    unPinPage exVictim1 9 9 true = (.ok (), exVictim1) := by
  have h := c8_unpin_missing_silent_noop exVictim1 9 9 true (by decide)
  exact ⟨by decide, by decide, h.1 (by decide)⟩

/-! ### C9 -/

/-- C9: the dirty flag is monotone under release — no `unPinPage` call,
in particular one with the modified flag false, ever clears any frame's
dirty flag; an unpin can only set it. -/
theorem c9_dirty_sticky_under_unpin (s : BufState) (f p : Nat) (m : Bool) (j : Nat)
    (h : (s.getDesc j).dirty = true) :
    ((unPinPage s f p m).snd.getDesc j).dirty = true := by
  have hjlt : j < s.bufDescTable.length := lt_of_getDesc_dirty h
  rcases hl : hashLookup s.hashTable f p with _ | fr
  · rw [unPinPage_missing hl]
    exact h
  · by_cases hpc : (s.getDesc fr).pinCnt ≤ 0
    · rw [unPinPage_overRelease hl hpc]
      exact h
    · rw [unPinPage_found hl hpc]
      by_cases hjf : fr = j
      · subst hjf
        have hd1 : ((s.setDesc fr { s.getDesc fr with
            pinCnt := (s.getDesc fr).pinCnt - 1 }).getDesc fr).dirty = true := by
          rw [getDesc_setDesc_self _ _ _ hjlt]
          exact h
        by_cases hm : m = true
        · simp only [if_pos hm]
          have hlt2 : fr < (s.setDesc fr { s.getDesc fr with
              pinCnt := (s.getDesc fr).pinCnt - 1 }).bufDescTable.length := by
            show fr < (s.bufDescTable.set fr _).length
            rw [List.length_set]
            exact hjlt
          rw [getDesc_setDesc_self _ _ _ hlt2]
        · simp only [if_neg hm]
          exact hd1
      · by_cases hm : m = true
        · simp only [if_pos hm]
          rw [getDesc_setDesc_ne _ _ hjf, getDesc_setDesc_ne _ _ hjf]
          exact h
        · simp only [if_neg hm]
          rw [getDesc_setDesc_ne _ _ hjf]
          exact h

/-- Witness for C9: a release with modified flag false on a concrete
dirty pinned frame leaves the dirty flag set. -/
theorem c9_dirty_sticky_under_unpin_witness :
    (exDirty1.getDesc 0).dirty = true ∧
    ((unPinPage exDirty1 1 1 false).snd.getDesc 0).dirty = true := by
  have h := c9_dirty_sticky_under_unpin exDirty1 1 1 false 0 (by decide)
  exact ⟨by decide, h⟩

/-! ### C10 -/

/-- C10: `allocPage` requests the new backend page before obtaining a
frame; therefore if victim selection then raises
`BufferExceededException`, the error propagates while the backend already
holds the freshly allocated page (registered in its contents, with the
file's next page number consumed), but the identity index is exactly as
before, no descriptor field other than refbit changed, and no write-back
happened — the operation is not atomic on this error path. -/
theorem c10_allocPage_not_atomic (s : BufState) (fid : Nat) (e : BufException)
    (herr : (allocBuf { s with disk := (s.disk.allocatePage fid).snd }).fst = .error e) :
    allocPage s fid
      = (.error e, (allocBuf { s with disk := (s.disk.allocatePage fid).snd }).snd) ∧
    e = .bufferExceeded ∧
    (allocPage s fid).snd.hashTable = s.hashTable ∧
    (∀ j, sameExceptRefbit (s.getDesc j) ((allocPage s fid).snd.getDesc j)) ∧
    (allocPage s fid).snd.disk.contents
      = ((fid, (s.disk.allocatePage fid).fst.page_number), 0) :: s.disk.contents ∧
    diskRead (allocPage s fid).snd.disk fid (s.disk.allocatePage fid).fst.page_number
      = some 0 ∧
    (allocPage s fid).snd.disk.writes = s.disk.writes := by
  have herr2 : (allocBufG { s with disk := (s.disk.allocatePage fid).snd }).fst = .error e :=
    allocBuf_fst_error herr
  have hg : allocBufG { s with disk := (s.disk.allocatePage fid).snd }
      = (.error e, (allocBufG { s with disk := (s.disk.allocatePage fid).snd }).snd) := by
    have h0 : allocBufG { s with disk := (s.disk.allocatePage fid).snd }
        = ((allocBufG { s with disk := (s.disk.allocatePage fid).snd }).fst,
           (allocBufG { s with disk := (s.disk.allocatePage fid).snd }).snd) := rfl
    rw [herr2] at h0
    exact h0
  obtain ⟨he2, hhash, hdisk, _, _, _, _, hsame⟩ := allocBufLoop_error hg
  have ha : allocBuf { s with disk := (s.disk.allocatePage fid).snd }
      = (.error e, (allocBuf { s with disk := (s.disk.allocatePage fid).snd }).snd) := by
    rw [allocBuf_def, herr2]
    rfl
  have hap : allocPage s fid
      = (.error e, (allocBuf { s with disk := (s.disk.allocatePage fid).snd }).snd) :=
    allocPage_error ha
  refine ⟨hap, he2, ?_, ?_, ?_, ?_, ?_⟩
  · rw [hap]
    show (allocBufG { s with disk := (s.disk.allocatePage fid).snd }).snd.hashTable
      = s.hashTable
    rw [hhash]
    rfl
  · intro j
    rw [hap]
    show sameExceptRefbit (s.getDesc j)
      ((allocBufG { s with disk := (s.disk.allocatePage fid).snd }).snd.getDesc j)
    exact hsame j
  · rw [hap]
    show (allocBufG { s with disk := (s.disk.allocatePage fid).snd }).snd.disk.contents
      = ((fid, (s.disk.allocatePage fid).fst.page_number), 0) :: s.disk.contents
    rw [hdisk]
    rfl
  · rw [hap]
    show diskRead (allocBufG { s with disk := (s.disk.allocatePage fid).snd }).snd.disk
      fid (s.disk.allocatePage fid).fst.page_number = some 0
    rw [hdisk]
    show diskRead (s.disk.allocatePage fid).snd fid
      (s.disk.allocatePage fid).fst.page_number = some 0
    simp [diskRead, DiskState.allocatePage, List.find?]
  · rw [hap]
    show (allocBufG { s with disk := (s.disk.allocatePage fid).snd }).snd.disk.writes
      = s.disk.writes
    rw [hdisk]
    rfl

/-- Witness for C10 on a concrete fully pinned one-frame pool: the
backend gains the page, the pool does not. -/
theorem c10_allocPage_not_atomic_witness :
    (allocBuf { exPinned1 with disk := (exPinned1.disk.allocatePage 2).snd }).fst
      = .error .bufferExceeded ∧
    (allocPage exPinned1 2).snd.hashTable = exPinned1.hashTable ∧
    (allocPage exPinned1 2).snd.disk.contents
      = ((2, 1), 0) :: exPinned1.disk.contents ∧
    diskRead (allocPage exPinned1 2).snd.disk 2 1 = some 0 ∧
    (allocPage exPinned1 2).snd.disk.writes = exPinned1.disk.writes := by
  have h := c10_allocPage_not_atomic exPinned1 2 .bufferExceeded rfl
  exact ⟨rfl, h.2.2.1, h.2.2.2.2.1, h.2.2.2.2.2.1, h.2.2.2.2.2.2⟩

theorem readPageFill_bufPool (s1 : BufState) (file pageNo g v : Nat) :
    (readPageFill s1 file pageNo g v).bufPool
      = s1.bufPool.set g { page_number := pageNo, data := v } := rfl

/-! ### C4 -/

/-- C4: round-trip with write-back. If the `allocBuf` sweep selects as
victim an occupied frame `f` that is dirty and holds page `(fid, pageNo)`
with content `v`, then in the resulting state — the state in which the
frame has been cleared and its identity entry removed, i.e. before any
reuse of the frame — the backend write trace is headed by exactly the
`writePage` of that frame's content, and the backend now stores `v` for
`(fid, pageNo)`; consequently any later fetch of `(fid, pageNo)` that
misses the pool, obtains some frame `g`, and reads the backend (which
still stores `v`) returns the handle `g` whose pool slot holds the
written content `v`. -/
theorem c4_dirty_eviction_roundtrip (s : BufState) (f : Nat) (d : BufDesc) (fid v : Nat)
    (hsel : (allocBufG s).fst = .ok (f, d))
    (hocc : d.valid = true) (hdirty : d.dirty = true)
    (hfile : d.file = some fid)
    (hpn : (s.bufPool.getD f emptyPage).page_number = d.pageNo)
    (hdata : (s.bufPool.getD f emptyPage).data = v) :
    (allocBufG s).snd.disk.writes = (fid, s.bufPool.getD f emptyPage) :: s.disk.writes ∧
    diskRead (allocBufG s).snd.disk fid d.pageNo = some v ∧
    (allocBufG s).snd.getDesc f = d.Clear ∧
    hashLookup (allocBufG s).snd.hashTable fid d.pageNo = none ∧
    (∀ t : BufState, ∀ g : Nat,
      hashLookup t.hashTable fid d.pageNo = none →
      (allocBuf t).fst = .ok g →
      diskRead ((allocBuf t).snd).disk fid d.pageNo = some v →
      g < ((allocBuf t).snd).bufPool.length →
      (readPage t fid d.pageNo).fst = .ok g ∧
      (readPage t fid d.pageNo).snd.bufPool.getD g emptyPage
        = { page_number := d.pageNo, data := v }) := by
  have hpair : allocBufLoop (2 * s.numBufs) (advanceClock s)
      = (.ok (f, d), (allocBufG s).snd) := by
    have h0 : allocBufG s = ((allocBufG s).fst, (allocBufG s).snd) := rfl
    rw [hsel] at h0
    exact h0
  obtain ⟨_, _, hval⟩ := allocBufLoop_ok hpair
  obtain ⟨_, _, hclear, hhn, _, hwr, _⟩ := hval hocc
  obtain ⟨hw1, hw2⟩ := hwr hdirty
  have hfg : (d.file).getD 0 = fid := by rw [hfile]; rfl
  refine ⟨?_, ?_, hclear, ?_, ?_⟩
  · rw [← hfg]
    exact hw1
  · rw [← hfg, ← hpn, ← hdata]
    exact hw2
  · rw [← hfg]
    exact hhn
  · intro t g hmiss hok hdr hglt
    have hat : allocBuf t = (.ok g, (allocBuf t).snd) := by
      have h0 : allocBuf t = ((allocBuf t).fst, (allocBuf t).snd) := rfl
      rw [hok] at h0
      exact h0
    rw [readPage_miss_fill hmiss hat hdr]
    refine ⟨rfl, ?_⟩
    show (readPageFill (allocBuf t).snd fid d.pageNo g v).bufPool.getD g emptyPage
      = { page_number := d.pageNo, data := v }
    rw [readPageFill_bufPool]
    exact getD_set_self _ _ _ _ hglt

/-- The pool state of the concrete C4 scenario: a one-frame pool fetches
page (1,1), the consumer overwrites its content with 77 through the
pinned handle, and releases it with the modified flag set. -/
def c4state : BufState :=
  (unPinPage (writeThroughHandle ((readPage { initBufMgr 1 with disk := exDisk } 1 1).snd) 0 77)
    1 1 true).snd

/-- The descriptor the sweep observes when it evicts the scenario's dirty
frame (its refbit was cleared on the sweep's first pass). -/
def c4desc : BufDesc :=
  { frameNo := 0, valid := true, file := some 1, pageNo := 1,
    pinCnt := 0, dirty := true, refbit := false }

/-- Witness for C4: the full fetch / modify / release / evict / re-fetch
round trip on a concrete one-frame pool. -/
theorem c4_dirty_eviction_roundtrip_witness :
    ((allocBufG c4state).fst = .ok (0, c4desc) ∧ c4desc.dirty = true) ∧
    (allocBufG c4state).snd.disk.writes
      = (1, c4state.bufPool.getD 0 emptyPage) :: c4state.disk.writes ∧
    diskRead (allocBufG c4state).snd.disk 1 c4desc.pageNo = some 77 ∧
    (readPage (allocBufG c4state).snd 1 c4desc.pageNo).snd.bufPool.getD 0 emptyPage
      = { page_number := c4desc.pageNo, data := 77 } := by
  have h := c4_dirty_eviction_roundtrip c4state 0 c4desc 1 77 rfl rfl rfl rfl rfl rfl
  have h5 := h.2.2.2.2 (allocBufG c4state).snd 0 (by decide) rfl rfl (by decide)
  exact ⟨⟨rfl, rfl⟩, h.1, h.2.1, h5.2⟩

/-! ### flushFile machinery -/

theorem evictFrame_getDesc_ne (s : BufState) (i j : Nat) (h : i ≠ j) :
    (evictFrame s i).getDesc j = s.getDesc j := by
  show ((evictFrame s i).bufDescTable).getD j emptyDesc = _
  rw [evictFrame_bufDescTable]
  exact getD_set_ne _ _ _ h

theorem evictFrame_length (s : BufState) (i : Nat) :
    (evictFrame s i).bufDescTable.length = s.bufDescTable.length := by
  rw [evictFrame_bufDescTable]
  exact List.length_set ..

/-- The list of frame indices `[i, i + m)` visited by a loop window. -/
def idxWindow : Nat → Nat → List Nat
  | _, 0 => []
  | i, m + 1 => i :: idxWindow (i + 1) m

theorem mem_idxWindow : ∀ {m i j : Nat}, j ∈ idxWindow i m ↔ i ≤ j ∧ j < i + m := by
  intro m
  induction m with
  | zero =>
    intro i j
    simp [idxWindow]
  | succ m ih =>
    intro i j
    simp [idxWindow, ih]
    omega

/-- Whether `flushFile` for `fid` writes frame `j` back in state `s`. -/
def flushDirtyFor (s : BufState) (fid j : Nat) : Bool :=
  decide ((s.getDesc j).valid = true ∧ (s.getDesc j).file = some fid ∧
    (s.getDesc j).dirty = true)

/-- The backend write events (newest first) that flushing frames
`[i, i + m)` of `fid` appends to the trace. -/
def flushWritesAux (s : BufState) (fid i m : Nat) : List (Nat × Page) :=
  (((idxWindow i m).filter (fun j => flushDirtyFor s fid j)).map
    (fun j => (fid, s.bufPool.getD j emptyPage))).reverse

/-- The backend write events (newest first) of a whole `flushFile`
call: one event per dirty resident frame of `fid`, in descending frame
order. -/
def flushWrites (s : BufState) (fid : Nat) : List (Nat × Page) :=
  flushWritesAux s fid 0 s.numBufs

theorem flushWritesAux_zero (s : BufState) (fid i : Nat) :
    flushWritesAux s fid i 0 = [] := by
  simp [flushWritesAux, idxWindow]

theorem flushWritesAux_cons_true (s : BufState) (fid i m : Nat)
    (h : flushDirtyFor s fid i = true) :
    flushWritesAux s fid i (m + 1)
      = flushWritesAux s fid (i + 1) m ++ [(fid, s.bufPool.getD i emptyPage)] := by
  simp [flushWritesAux, idxWindow, List.filter_cons, h]

theorem flushWritesAux_cons_false (s : BufState) (fid i m : Nat)
    (h : flushDirtyFor s fid i = false) :
    flushWritesAux s fid i (m + 1) = flushWritesAux s fid (i + 1) m := by
  simp [flushWritesAux, idxWindow, List.filter_cons, h]

theorem flushWritesAux_congr {s t : BufState} (fid i m : Nat)
    (hdesc : ∀ j, i ≤ j → j < i + m → t.getDesc j = s.getDesc j)
    (hpool : t.bufPool = s.bufPool) :
    flushWritesAux t fid i m = flushWritesAux s fid i m := by
  unfold flushWritesAux
  rw [hpool]
  have hf : (idxWindow i m).filter (fun j => flushDirtyFor t fid j)
      = (idxWindow i m).filter (fun j => flushDirtyFor s fid j) := by
    apply List.filter_congr
    intro j hj
    obtain ⟨hj1, hj2⟩ := mem_idxWindow.mp hj
    simp only [flushDirtyFor]
    rw [hdesc j hj1 hj2]
  rw [hf]

theorem flushFileLoop_step_corrupt (file m i : Nat) (s : BufState)
    (h : corruptDesc (s.getDesc i)) :
    flushFileLoop file (m + 1) i s
      = (.error (.badBuffer i (s.getDesc i).dirty false (s.getDesc i).refbit), s) := by
  rw [flushFileLoop, if_pos h]

theorem flushFileLoop_step_skip (file m i : Nat) (s : BufState)
    (h1 : ¬ corruptDesc (s.getDesc i))
    (h2 : (s.getDesc i).valid = false ∨ (s.getDesc i).file ≠ some file) :
    flushFileLoop file (m + 1) i s = flushFileLoop file m (i + 1) s := by
  rw [flushFileLoop, if_neg h1, if_pos h2]

theorem flushFileLoop_step_pinned (file m i : Nat) (s : BufState)
    (h1 : ¬ corruptDesc (s.getDesc i))
    (h2 : ¬ ((s.getDesc i).valid = false ∨ (s.getDesc i).file ≠ some file))
    (h3 : 0 < (s.getDesc i).pinCnt) :
    flushFileLoop file (m + 1) i s
      = (.error (.pagePinned file (s.getDesc i).pageNo i), s) := by
  rw [flushFileLoop, if_neg h1, if_neg h2, if_pos h3]

theorem flushFileLoop_step_flush (file m i : Nat) (s : BufState)
    (h1 : ¬ corruptDesc (s.getDesc i))
    (h2 : ¬ ((s.getDesc i).valid = false ∨ (s.getDesc i).file ≠ some file))
    (h3 : ¬ 0 < (s.getDesc i).pinCnt) :
    flushFileLoop file (m + 1) i s = flushFileLoop file m (i + 1) (evictFrame s i) := by
  rw [flushFileLoop, if_neg h1, if_neg h2, if_neg h3]

/-- When no frame in the window `[i, i + m)` is corrupt and no resident
frame of `fid` in it is pinned, the flush loop succeeds; frames outside
the window are untouched; every resident frame of `fid` in the window is
cleared and every other frame unchanged; the identity index only loses
entries, losing every key of a flushed frame; and the backend trace gains
exactly one write per dirty resident frame of `fid`, in sweep order. -/
theorem flushFileLoop_clean (fid : Nat) :
    ∀ (m i : Nat) (s : BufState),
    i + m ≤ s.bufDescTable.length →
    (∀ j, i ≤ j → j < i + m → ¬ corruptDesc (s.getDesc j)) →
    (∀ j, i ≤ j → j < i + m → (s.getDesc j).valid = true →
      (s.getDesc j).file = some fid → ¬ 0 < (s.getDesc j).pinCnt) →
    (flushFileLoop fid m i s).fst = .ok () ∧
    (∀ j, j < i ∨ i + m ≤ j → (flushFileLoop fid m i s).snd.getDesc j = s.getDesc j) ∧
    (∀ j, i ≤ j → j < i + m →
      (flushFileLoop fid m i s).snd.getDesc j
        = if (s.getDesc j).valid = true ∧ (s.getDesc j).file = some fid
          then (s.getDesc j).Clear else s.getDesc j) ∧
    (∀ e ∈ (flushFileLoop fid m i s).snd.hashTable, e ∈ s.hashTable) ∧
    (∀ j, i ≤ j → j < i + m → (s.getDesc j).valid = true →
      (s.getDesc j).file = some fid →
      ∀ e ∈ (flushFileLoop fid m i s).snd.hashTable, e.fst ≠ (fid, (s.getDesc j).pageNo)) ∧
    (flushFileLoop fid m i s).snd.disk.writes
      = flushWritesAux s fid i m ++ s.disk.writes ∧
    (flushFileLoop fid m i s).snd.bufPool = s.bufPool := by
  intro m
  induction m with
  | zero =>
    intro i s hlen hsafe hnp
    rw [flushFileLoop]
    refine ⟨rfl, fun j _ => rfl, fun j h1 h2 => absurd h2 (by omega), fun e he => he,
            fun j h1 h2 => absurd h2 (by omega), ?_, rfl⟩
    rw [flushWritesAux_zero]
    rfl
  | succ m ih =>
    intro i s hlen hsafe hnp
    have hsafe_i := hsafe i (Nat.le_refl i) (by omega)
    by_cases hskip : (s.getDesc i).valid = false ∨ (s.getDesc i).file ≠ some fid
    · rw [flushFileLoop_step_skip fid m i s hsafe_i hskip]
      obtain ⟨h1, h2, h3, h4, h5, h6, h7⟩ := ih (i + 1) s (by omega)
        (fun j hj1 hj2 => hsafe j (by omega) (by omega))
        (fun j hj1 hj2 => hnp j (by omega) (by omega))
      have hcond : ¬ ((s.getDesc i).valid = true ∧ (s.getDesc i).file = some fid) := by
        rcases hskip with h | h
        · intro hc
          rw [hc.1] at h
          exact Bool.noConfusion h
        · intro hc
          exact h hc.2
      refine ⟨h1, ?_, ?_, h4, ?_, ?_, h7⟩
      · intro j hj
        exact h2 j (by omega)
      · intro j hj1 hj2
        by_cases hji : j = i
        · subst hji
          rw [h2 j (by omega), if_neg hcond]
        · exact h3 j (by omega) (by omega)
      · intro j hj1 hj2 hv hf
        by_cases hji : j = i
        · subst hji
          exact absurd ⟨hv, hf⟩ hcond
        · exact h5 j (by omega) (by omega) hv hf
      · rw [h6, flushWritesAux_cons_false]
        simp only [flushDirtyFor, decide_eq_false_iff_not]
        intro hc
        exact hcond ⟨hc.1, hc.2.1⟩
    · have hv : (s.getDesc i).valid = true := by
        rcases not_or.mp hskip with ⟨h1, _⟩
        revert h1
        cases (s.getDesc i).valid <;> simp
      have hf : (s.getDesc i).file = some fid := by
        rcases not_or.mp hskip with ⟨_, h2⟩
        exact not_not.mp h2
      have hpin := hnp i (Nat.le_refl i) (by omega) hv hf
      rw [flushFileLoop_step_flush fid m i s hsafe_i hskip hpin]
      have hlt : i < s.bufDescTable.length := by omega
      have hne : ∀ j, j ≠ i → (evictFrame s i).getDesc j = s.getDesc j :=
        fun j hj => evictFrame_getDesc_ne s i j (fun hh => hj hh.symm)
      obtain ⟨h1, h2, h3, h4, h5, h6, h7⟩ := ih (i + 1) (evictFrame s i)
        (by rw [evictFrame_length]; omega)
        (fun j hj1 hj2 => by
          rw [hne j (by omega)]
          exact hsafe j (by omega) (by omega))
        (fun j hj1 hj2 => by
          rw [hne j (by omega)]
          exact hnp j (by omega) (by omega))
      have hsub : ∀ e ∈ (flushFileLoop fid m (i + 1) (evictFrame s i)).snd.hashTable,
          e ∈ hashRemove s.hashTable (((s.getDesc i).file).getD 0) ((s.getDesc i).pageNo) := by
        intro e he
        have := h4 e he
        rwa [evictFrame_hashTable] at this
      refine ⟨h1, ?_, ?_, ?_, ?_, ?_, ?_⟩
      · intro j hj
        rw [h2 j (by omega)]
        exact hne j (by omega)
      · intro j hj1 hj2
        by_cases hji : j = i
        · subst hji
          rw [h2 j (by omega), evictFrame_getDesc_self s j hlt, if_pos ⟨hv, hf⟩]
        · have h3j := h3 j (by omega) (by omega)
          rwa [hne j hji] at h3j
      · intro e he
        exact mem_of_mem_hashRemove (hsub e he)
      · intro j hj1 hj2 hv2 hf2 e he
        by_cases hji : j = i
        · subst hji
          have hkey := key_ne_of_mem_hashRemove (hsub e he)
          rw [hf] at hkey
          exact hkey
        · have h5j := h5 j (by omega) (by omega)
          rw [hne j hji] at h5j
          exact h5j hv2 hf2 e he
      · have hcong : flushWritesAux (evictFrame s i) fid (i + 1) m
            = flushWritesAux s fid (i + 1) m :=
          flushWritesAux_congr fid (i + 1) m
            (fun j hj1 hj2 => hne j (by omega)) (evictFrame_bufPool s i)
        by_cases hd : (s.getDesc i).dirty = true
        · have hwr : (evictFrame s i).disk.writes
              = (fid, s.bufPool.getD i emptyPage) :: s.disk.writes := by
            rw [evictFrame_disk_dirty s i hd]
            show (((s.getDesc i).file).getD 0, s.bufPool.getD i emptyPage)
              :: s.disk.writes = _
            rw [hf]
            rfl
          have hdf : flushDirtyFor s fid i = true := by
            simp [flushDirtyFor, hv, hf, hd]
          rw [h6, hcong, hwr, flushWritesAux_cons_true s fid i m hdf]
          simp
        · have hd2 : (s.getDesc i).dirty = false := by
            revert hd
            cases (s.getDesc i).dirty <;> simp
          have hdf : flushDirtyFor s fid i = false := by
            simp [flushDirtyFor, hd2]
          have hwr : (evictFrame s i).disk.writes = s.disk.writes := by
            rw [evictFrame_disk_clean s i hd2]
          rw [h6, hcong, hwr, flushWritesAux_cons_false s fid i m hdf]
      · rw [h7]
        exact evictFrame_bufPool s i

/-! ### C5 -/

/-- C5: if no frame is corrupt and no resident frame of `file` is pinned
(so `flushFile` visits every frame), the flush completes successfully;
afterwards every resident frame of `file` is cleared to Free, every other
frame is unchanged, no identity-index entry for any page of `file`
remains (given the index consistency invariant that each of its entries
for `file` points at a resident frame of `file` holding that page), the
pool is untouched, and the backend trace gained exactly the write-back
events `flushWrites` — one per dirty resident frame of `file`, so each
such frame was written back exactly once. -/
theorem c5_flushFile_clean (s : BufState) (fid : Nat)
    (hlen : s.bufDescTable.length = s.numBufs)
    (hsafe : ∀ j, j < s.numBufs → ¬ corruptDesc (s.getDesc j))
    (hnp : ∀ j, j < s.numBufs → (s.getDesc j).valid = true →
      (s.getDesc j).file = some fid → ¬ 0 < (s.getDesc j).pinCnt)
    (hhc : ∀ e ∈ s.hashTable, e.fst.fst = fid →
      ∃ j ∈ List.range s.numBufs, (s.getDesc j).valid = true ∧
        (s.getDesc j).file = some fid ∧ (s.getDesc j).pageNo = e.fst.snd) :
    (flushFile s fid).fst = .ok () ∧
    (∀ j, j < s.numBufs → (s.getDesc j).valid = true → (s.getDesc j).file = some fid →
      (flushFile s fid).snd.getDesc j = (s.getDesc j).Clear) ∧
    (∀ j, ¬ ((s.getDesc j).valid = true ∧ (s.getDesc j).file = some fid) →
      (flushFile s fid).snd.getDesc j = s.getDesc j) ∧
    (∀ e ∈ (flushFile s fid).snd.hashTable, e.fst.fst ≠ fid) ∧
    (flushFile s fid).snd.disk.writes = flushWrites s fid ++ s.disk.writes ∧
    (flushFile s fid).snd.bufPool = s.bufPool := by
  obtain ⟨h1, h2, h3, h4, h5, h6, h7⟩ := flushFileLoop_clean fid s.numBufs 0 s
    (by omega)
    (fun j _ hj2 => hsafe j (by omega))
    (fun j _ hj2 => hnp j (by omega))
  refine ⟨h1, ?_, ?_, ?_, h6, h7⟩
  · intro j hj hv hf
    have h := h3 j (Nat.zero_le j) (by omega)
    rwa [if_pos ⟨hv, hf⟩] at h
  · intro j hcond
    by_cases hj : j < s.numBufs
    · have h := h3 j (Nat.zero_le j) (by omega)
      rwa [if_neg hcond] at h
    · exact h2 j (Or.inr (by omega))
  · intro e he hc2
    obtain ⟨j, hjr, hv, hf, hpn⟩ := hhc e (h4 e he) hc2
    have hjlt : j < s.numBufs := List.mem_range.mp hjr
    apply h5 j (Nat.zero_le j) (by omega) hv hf e he
    exact Prod.ext hc2 hpn.symm

/-- A two-frame pool: frame 0 holds a dirty unpinned page of file 1,
frame 1 holds a pinned page of file 2. -/
def exFlushState : BufState :=
  { numBufs := 2,
    bufDescTable := [{ frameNo := 0, valid := true, file := some 1, pageNo := 1,
                       pinCnt := 0, dirty := true, refbit := true },
                     { frameNo := 1, valid := true, file := some 2, pageNo := 1,
                       pinCnt := 1, dirty := false, refbit := false }],
    bufPool := [{ page_number := 1, data := 99 }, { page_number := 1, data := 50 }],
    hashTable := [((1, 1), 0), ((2, 1), 1)],
    clockHand := 0, disk := exDisk, advCount := 0 }

/-- Witness for C5 on a concrete two-frame pool. -/
theorem c5_flushFile_clean_witness :
    (flushFile exFlushState 1).fst = .ok () ∧
    (flushFile exFlushState 1).snd.getDesc 0 = (exFlushState.getDesc 0).Clear ∧
    (flushFile exFlushState 1).snd.getDesc 1 = exFlushState.getDesc 1 ∧
    (∀ e ∈ (flushFile exFlushState 1).snd.hashTable, e.fst.fst ≠ 1) ∧
    (flushFile exFlushState 1).snd.disk.writes
      = flushWrites exFlushState 1 ++ exFlushState.disk.writes := by
  have h := c5_flushFile_clean exFlushState 1 (by decide) (by decide) (by decide) (by decide)
  exact ⟨h.1, h.2.1 0 (by decide) (by decide) (by decide), h.2.2.1 1 (by decide),
         h.2.2.2.1, h.2.2.2.2.1⟩

/-! ### C7 -/

/-- If a corrupt frame `i` lies inside the window and every earlier frame
of the window is neither corrupt nor a pinned resident of `fid` (so the
loop reaches frame `i`), the flush loop stops at frame `i` with
`BadBufferException`. -/
theorem flushFileLoop_corrupt (fid : Nat) :
    ∀ (m i0 i : Nat) (s : BufState),
    i0 ≤ i → i < i0 + m →
    corruptDesc (s.getDesc i) →
    (∀ j, i0 ≤ j → j < i → ¬ corruptDesc (s.getDesc j) ∧
      ((s.getDesc j).valid = true → (s.getDesc j).file = some fid →
        ¬ 0 < (s.getDesc j).pinCnt)) →
    (flushFileLoop fid m i0 s).fst
      = .error (.badBuffer i (s.getDesc i).dirty false (s.getDesc i).refbit) := by
  intro m
  induction m with
  | zero =>
    intro i0 i s h1 h2 _ _
    omega
  | succ m ih =>
    intro i0 i s h1 h2 hcorr hbefore
    by_cases hii : i0 = i
    · subst hii
      rw [flushFileLoop_step_corrupt fid m i0 s hcorr]
    · have hlt : i0 < i := Nat.lt_of_le_of_ne h1 hii
      obtain ⟨hnc0, hnp0⟩ := hbefore i0 (Nat.le_refl i0) hlt
      by_cases hskip : (s.getDesc i0).valid = false ∨ (s.getDesc i0).file ≠ some fid
      · rw [flushFileLoop_step_skip fid m i0 s hnc0 hskip]
        exact ih (i0 + 1) i s (by omega) (by omega) hcorr
          (fun j hj1 hj2 => hbefore j (by omega) hj2)
      · have hv : (s.getDesc i0).valid = true := by
          rcases not_or.mp hskip with ⟨hx, _⟩
          revert hx
          cases (s.getDesc i0).valid <;> simp
        have hf : (s.getDesc i0).file = some fid := by
          rcases not_or.mp hskip with ⟨_, hx⟩
          exact not_not.mp hx
        have hpin := hnp0 hv hf
        rw [flushFileLoop_step_flush fid m i0 s hnc0 hskip hpin]
        have hne : ∀ j, j ≠ i0 → (evictFrame s i0).getDesc j = s.getDesc j :=
          fun j hj => evictFrame_getDesc_ne s i0 j (fun hh => hj hh.symm)
        have hres := ih (i0 + 1) i (evictFrame s i0) (by omega) (by omega)
          (by rw [hne i (by omega)]; exact hcorr)
          (fun j hj1 hj2 => by
            rw [hne j (by omega)]
            exact hbefore j (by omega) hj2)
        rwa [hne i (by omega)] at hres

/-- C7: `flushFile` raises `BadBufferException` whenever it visits a
frame with `valid = false` but some non-default auxiliary field (nonzero
pin count, non-null file, a page number other than the invalid sentinel,
a set dirty flag, or a set refbit): if frame `i` is corrupt and every
frame before it is neither corrupt nor a pinned resident of the flushed
file (so the walk reaches frame `i` instead of failing earlier), the call
reports descriptor corruption at frame `i` rather than skipping it. -/
theorem c7_flushFile_detects_corruption (s : BufState) (fid i : Nat)
    (hi : i < s.numBufs)
    (hcorr : corruptDesc (s.getDesc i))
    (hbefore : ∀ j, j < i → ¬ corruptDesc (s.getDesc j) ∧
      ((s.getDesc j).valid = true → (s.getDesc j).file = some fid →
        ¬ 0 < (s.getDesc j).pinCnt)) :
    (flushFile s fid).fst
      = .error (.badBuffer i (s.getDesc i).dirty false (s.getDesc i).refbit) :=
  flushFileLoop_corrupt fid s.numBufs 0 i s (Nat.zero_le i) (by omega) hcorr
    (fun j _ hj => hbefore j hj)

/-- A two-frame pool whose frame 0 is invalid yet keeps a set refbit
(descriptor corruption), with a clean resident frame of file 1 after
it. -/
def exCorrupt : BufState :=
  { numBufs := 2,
    bufDescTable := [{ frameNo := 0, valid := false, file := none, pageNo := 0,
                       pinCnt := 0, dirty := false, refbit := true },
                     { frameNo := 1, valid := true, file := some 1, pageNo := 1,
                       pinCnt := 0, dirty := false, refbit := false }],
    bufPool := [emptyPage, { page_number := 1, data := 10 }],
    hashTable := [((1, 1), 1)],
    clockHand := 0, disk := exDisk, advCount := 0 }

/-- Witness for C7 on a concrete pool with a corrupt frame 0. -/
theorem c7_flushFile_detects_corruption_witness :
    corruptDesc (exCorrupt.getDesc 0) ∧
    (flushFile exCorrupt 1).fst = .error (.badBuffer 0 false false true) := by
  have h := c7_flushFile_detects_corruption exCorrupt 1 0 (by decide) (by decide)
    (fun j hj => absurd hj (by omega))
  exact ⟨by decide, h⟩
